import Mathlib

/-!
Verification model of the aggregation pipeline in `src/server.js`
(Maestro-AI-backend).

JavaScript strings are modeled as lists of characters (`JStr`).  Every
string operation of the source (`split`, `replace` with the concrete
regexes, `trim`, `slice`, `substring`, `join`, template literals) is
translated into an explicit executable Lean function on `List Char`.
JavaScript truthiness on strings (only the empty string is falsy) is
modeled by `truthy`/`jsOrStr`.  I/O (HTTP calls, the search engine,
page fetching, Readability extraction) is modeled by explicit outcome
values supplied through an environment, and the observable effects of
the `/ask` handler (status code, response payload, which calls were
made, which prompt was built) are recorded in a `HandlerResult`.
-/

abbrev JStr := List Char

/-- Character class of the JavaScript regex `\s` (ASCII fragment:
space, tab, newline, carriage return, vertical tab, form feed). -/
def isSpaceChar (c : Char) : Bool :=
  c = ' ' || c = '\t' || c = '\n' || c = '\r' || c = Char.ofNat 11 || c = Char.ofNat 12

/-- Character class of `[*\-#\s]` used in `cleanBullets`'s leading-run strip
`l.replace(/^[*\-#\s]+/, "")`. -/
def isLeadMarker (c : Char) : Bool :=
  c = '*' || c = '-' || c = '#' || isSpaceChar c

/-- Character class of ``[*#`]`` removed everywhere by
``l.replace(/[*#`]/g, "")`` (the backtick is written via its code point). -/
def isEmphChar (c : Char) : Bool :=
  c = '*' || c = '#' || c = Char.ofNat 96

/-- JavaScript `String.prototype.trim`: drop whitespace from both ends. -/
def jsTrim (l : JStr) : JStr :=
  ((l.dropWhile isSpaceChar).reverse.dropWhile isSpaceChar).reverse

/-- JavaScript `text.split("\n")`. -/
def splitNl : JStr → List JStr
  | [] => [[]]
  | c :: cs =>
    if c = '\n' then [] :: splitNl cs
    else
      match splitNl cs with
      | [] => [[c]]
      | l :: ls => (c :: l) :: ls

/-- JavaScript `lines.join("\n")`. -/
def joinNl : List JStr → JStr
  | [] => []
  | [l] => l
  | l :: l2 :: ls => l ++ '\n' :: joinNl (l2 :: ls)

/-- One line of `cleanBullets`'s per-line map:
`l.replace(/^[*\-#\s]+/, "").replace(/[*#`]/g, "").trim()`. -/
def stripLine (l : JStr) : JStr :=
  jsTrim ((l.dropWhile isLeadMarker).filter (fun c => !isEmphChar c))

/-- The list of decorated lines produced by `cleanBullets` before the final
`join("\n")`: split on newlines, strip each line, keep lines of length > 3,
keep the first `max`, prefix each with `"- "`. -/
def cleanBulletLines (text : JStr) (max : Nat) : List JStr :=
  ((((splitNl text).map stripLine).filter (fun l => decide (3 < l.length))).take max).map
    (fun l => '-' :: ' ' :: l)

/-- `cleanBullets(text, max)` from `src/server.js` lines 19-26. -/
def cleanBullets (text : JStr) (max : Nat) : JStr :=
  joinNl (cleanBulletLines text max)

/-- An evidence record as produced by `performWebSearch`
(`{ url, title, date, excerpt }`). -/
structure Evidence where
  url : JStr
  title : JStr
  date : JStr
  excerpt : JStr
  deriving DecidableEq

/-- `l.replace(/^-\s*/, "")` used when `buildConclusion` re-splits a
provider's normalized text: remove one leading dash and the following
whitespace run, if the line starts with a dash. -/
def stripLeadingDash : JStr → JStr
  | '-' :: rest => rest.dropWhile isSpaceChar
  | l => l

/-- The bullets `buildConclusion` re-extracts from one provider's text:
`text.split("\n").map(l => l.replace(/^-\s*/, "").trim()).filter(l => l.length > 3)`. -/
def entryBullets (text : JStr) : List JStr :=
  ((splitNl text).map (fun l => jsTrim (stripLeadingDash l))).filter
    (fun l => decide (3 < l.length))

/-- Lookup in an association list keyed by strings; models reading a
property of a JavaScript object used as a map. -/
def lookupS {α : Type} : List (JStr × α) → JStr → Option α
  | [], _ => none
  | p :: rest, k => if p.1 = k then some p.2 else lookupS rest k

/-- `sources[model] && sources[model][i]`: the evidence record a bullet at
positional index `i` of provider `model` would be associated with. -/
def citeAt (sources : List (JStr × List Evidence)) (model : JStr) (i : Nat) : Option Evidence :=
  match lookupS sources model with
  | some es => es.get? i
  | none => none

/-- `citationsMap[b] = ev`: JavaScript object assignment, modeled as a
function update (the later write shadows earlier ones). -/
def updateCit (m : JStr → Option Evidence) (b : JStr) (ev : Evidence) : JStr → Option Evidence :=
  fun b2 => if b2 = b then some ev else m b2

/-- Body of `bullets.forEach((b, i) => ...)` restricted to its effect on
`citationsMap`: write `sources[model][i]` under key `b` when it exists. -/
def citStepBullet (sources : List (JStr × List Evidence)) (model : JStr)
    (m : JStr → Option Evidence) (pr : Nat × JStr) : JStr → Option Evidence :=
  match citeAt sources model pr.1 with
  | some ev => updateCit m pr.2 ev
  | none => m

/-- The `citationsMap` object after `buildConclusion`'s loop over
`Object.entries(results)` (entries are visited in insertion order,
modeled by the order of the association list). -/
def citationsMapOf (results : List (JStr × JStr)) (sources : List (JStr × List Evidence)) :
    JStr → Option Evidence :=
  results.foldl (fun m p => ((entryBullets p.2).enum).foldl (citStepBullet sources p.1) m)
    (fun _ => none)

/-- The `lines` array after the loop: all providers' re-split bullets,
provider order first, in-provider order second. -/
def allLines (results : List (JStr × JStr)) : List JStr :=
  (results.map (fun p => entryBullets p.2)).flatten

/-- `[...new Set(lines)]`: deduplicate keeping the first occurrence, in
order (auxiliary recursion carrying the set of already-seen strings). -/
def dedupFirstAux : List JStr → List JStr → List JStr
  | _, [] => []
  | seen, x :: xs =>
    if x ∈ seen then dedupFirstAux seen xs else x :: dedupFirstAux (x :: seen) xs

/-- `[...new Set(lines)]`. -/
def dedupFirst (l : List JStr) : List JStr := dedupFirstAux [] l

/-- `const unique = [...new Set(lines)].slice(0, 5)`. -/
def conclusionBullets (results : List (JStr × JStr)) : List JStr :=
  (dedupFirst (allLines results)).take 5

/-- The citation suffix appended to a retained line:
`` ` [${cit.title}](${cit.url}) (${cit.date || 'N/A'})` `` when a citation
exists, nothing otherwise. -/
def citeSuffix : Option Evidence → JStr
  | none => []
  | some ev =>
    " [".data ++ ev.title ++ "](".data ++ ev.url ++ ") (".data ++
      (if ev.date = [] then "N/A".data else ev.date) ++ ")".data

/-- The decorated conclusion lines `unique.map(b => `- ${b}${cit}`)`. -/
def conclusionList (results : List (JStr × JStr)) (sources : List (JStr × List Evidence)) :
    List JStr :=
  (conclusionBullets results).map
    (fun b => ('-' :: ' ' :: b) ++ citeSuffix (citationsMapOf results sources b))

/-- `buildConclusion(results, sources)` from `src/server.js` lines 29-50. -/
def buildConclusion (results : List (JStr × JStr)) (sources : List (JStr × List Evidence)) :
    JStr :=
  joinNl (conclusionList results sources)

/-- Declarative list of all citation-map writes that target bullet text `b`,
in program order: for each provider, for each of its bullets equal to `b` at
index `i`, the evidence `sources[model][i]` when it exists.  Used to state
that the imperative map realizes last-writer-wins. -/
def citationWrites (results : List (JStr × JStr)) (sources : List (JStr × List Evidence))
    (b : JStr) : List Evidence :=
  (results.map (fun p =>
    ((entryBullets p.2).enum).filterMap
      (fun pr => if pr.2 = b then citeAt sources p.1 pr.1 else none))).flatten

/-- Result of `new Readability(dom).parse()` when it returns an article
object; each field may be `null`/absent (`none`) or a string. -/
structure Article where
  title : Option JStr
  publishedTime : Option JStr
  excerpt : Option JStr
  textContent : Option JStr

/-- One entry of `data.organic_results`, together with the outcome of
fetching and parsing its page: `.error` models a throw anywhere inside the
per-page `try` (axios.get, JSDOM, Readability), `.ok none` models
`reader.parse()` returning `null`, `.ok (some a)` a parsed article. -/
structure RawResult where
  link : JStr
  title : JStr
  date : Option JStr
  page : Except Unit (Option Article)

/-- JavaScript string truthiness: `none` (undefined/null) and the empty
string are falsy. -/
def truthy : Option JStr → Option JStr
  | some s => if s = [] then none else some s
  | none => none

/-- JavaScript `a || b` on an optional string `a` and string `b`. -/
def jsOrStr (a : Option JStr) (b : JStr) : JStr :=
  match truthy a with
  | some s => s
  | none => b

/-- The evidence record built for one search result inside
`performWebSearch` (lines 82-98): `null` on a per-page failure, otherwise
`{ url: res.link, title: article?.title || res.title,
   date: res.date || article?.publishedTime || 'N/A',
   excerpt: article?.excerpt || article?.textContent?.substring(0,1000) || 'No content' }`.
(`substring(0, 1000)` is modeled as `take 1000` on characters.) -/
def extractOne (res : RawResult) : Option Evidence :=
  match res.page with
  | .error _ => none
  | .ok article =>
    some {
      url := res.link
      title := jsOrStr (article.bind Article.title) res.title
      date := jsOrStr res.date (jsOrStr (article.bind Article.publishedTime) "N/A".data)
      excerpt := jsOrStr (article.bind Article.excerpt)
        (jsOrStr ((article.bind Article.textContent).map (fun t => t.take 1000))
          "No content".data) }

/-- `performWebSearch(query)` from `src/server.js` lines 77-104.  The
outcome of the search call is supplied explicitly: `.error` models the
outer `catch` (whole-search failure), `.ok results` the parsed
`organic_results` array.  Only the first 5 results are processed
(`results.slice(0, 5)`), each is extracted, and failed pages are dropped
(`extracted.filter(Boolean)`). -/
def performWebSearch (searchResult : Except Unit (List RawResult)) : List Evidence :=
  match searchResult with
  | .error _ => []
  | .ok results => ((results.take 5).map extractOne).filterMap id

/-- The claim's reading of the record construction (C5 wording): title and
date are the extracted article's title and date if available, else the
search result's title and date, else `"N/A"`; excerpt as in the code. -/
def extractOneClaimed (res : RawResult) : Option Evidence :=
  match res.page with
  | .error _ => none
  | .ok article =>
    some {
      url := res.link
      title := jsOrStr (article.bind Article.title) (jsOrStr (some res.title) "N/A".data)
      date := jsOrStr (article.bind Article.publishedTime) (jsOrStr res.date "N/A".data)
      excerpt := jsOrStr (article.bind Article.excerpt)
        (jsOrStr ((article.bind Article.textContent).map (fun t => t.take 1000))
          "No content".data) }

/-- The amended reading, matching the code: title is the article's title if
truthy, else the search result's title (no `"N/A"` fallback for the title);
date is the search result's date if truthy, else the article's
`publishedTime` if truthy, else `"N/A"`; excerpt is the article's excerpt
if truthy, else the first 1000 characters of its text content if truthy,
else `"No content"`. -/
def extractOneAmended (res : RawResult) : Option Evidence :=
  match res.page with
  | .error _ => none
  | .ok article =>
    some {
      url := res.link
      title :=
        match truthy (article.bind Article.title) with
        | some t => t
        | none => res.title
      date :=
        match truthy res.date with
        | some d => d
        | none =>
          match truthy (article.bind Article.publishedTime) with
          | some d => d
          | none => "N/A".data
      excerpt :=
        match truthy (article.bind Article.excerpt) with
        | some e => e
        | none =>
          match truthy ((article.bind Article.textContent).map (fun t => t.take 1000)) with
          | some t => t
          | none => "No content".data }

/-- Outcome of one text-mode provider closure passed to `safeCall`:
`netError` = the HTTP exchange itself throws (before the closure assigns
`sources[model]`); `malformed` = the HTTP exchange succeeds, the closure
assigns `sources[model]`, and then reading the response body throws;
`ok raw` = full success returning `raw`. -/
inductive POutcome where
  | netError : POutcome
  | malformed : POutcome
  | ok : JStr → POutcome

/-- What the provider closure returns or throws, as seen by `safeCall`. -/
def pRaw : POutcome → Except Unit JStr
  | .netError => .error ()
  | .malformed => .error ()
  | .ok raw => .ok raw

/-- Whether the closure's `sources[model] = webSources` assignment ran:
it is placed directly after the awaited HTTP exchange, before the body
field accesses, so it runs in the `malformed` and `ok` cases. -/
def pSetsSources : POutcome → Bool
  | .netError => false
  | .malformed => true
  | .ok _ => true

/-- `safeCall(fn, fallback, name, maxBullets)` from lines 53-61: on success
normalize the raw text with `cleanBullets`; on any thrown error return the
fallback.  (`name` is only used for logging and does not affect the
result; all call sites pass a string fallback.) -/
def safeCall (fn : Except Unit JStr) (fallback : JStr) (name : JStr) (maxBullets : Nat) : JStr :=
  match fn with
  | .ok raw => cleanBullets raw maxBullets
  | .error _ => fallback

/-- Decimal digits of a number interpolated into a template literal. -/
def natChars (n : Nat) : JStr := (toString n).data

/-- `bulletPrompt(q, context, count, analysis)` from lines 64-74. -/
def bulletPrompt (q : JStr) (context : JStr) (count : Nat) (analysis : Bool) : JStr :=
  ("Answer in ".data ++ natChars count ++
      " short bullet points (max one line each). Include key facts, trends, and cite sources if provided.\n".data)
    ++ (if analysis then "Also identify pros/cons, differing viewpoints, or gaps if applicable.\n".data
        else [])
    ++ (if context = [] then []
        else "Context from sources: ".data ++ context ++ "\n\n".data)
    ++ ("Q: ".data ++ q ++ "\nA:".data)

/-- The context block
`webSources.map(s => `Source: ${s.title} (${s.url}, ${s.date}): ${s.excerpt.substring(0, 500)}`).join('\n')`. -/
def contextOf (ws : List Evidence) : JStr :=
  joinNl (ws.map (fun s =>
    "Source: ".data ++ s.title ++ " (".data ++ s.url ++ ", ".data ++ s.date ++ "): ".data ++
      s.excerpt.take 500))

/-- An incoming `/ask` request: the optional `question` body field (raw,
untrimmed) and whether a file was uploaded (its bytes and MIME type do not
affect any modeled observable). -/
structure Req where
  question : Option JStr
  file : Bool

/-- `const question = req.body.question?.trim?.() || ""`. -/
def questionOf (req : Req) : JStr :=
  match req.question with
  | some q => jsTrim q
  | none => []

/-- The environment of one request: the outcome of the search call, of the
four text-mode provider exchanges, and of the file-mode Gemini exchange
(`.ok none` = HTTP success whose body lacks the text field, which the
file-mode closure turns into `"No response from Gemini"` via optional
chaining; `.ok (some raw)` = text present; `.error` = the exchange threw). -/
structure Env where
  searchResult : Except Unit (List RawResult)
  openai : POutcome
  mistral : POutcome
  claude : POutcome
  gemini : POutcome
  fileGemini : Except Unit (Option JStr)

/-- The `results` object of the text flow (insertion order
openai, mistral, claude, gemini). -/
def textResults (env : Env) : List (JStr × JStr) :=
  [("openai".data, safeCall (pRaw env.openai) "Error from OpenAI".data "OpenAI".data 8),
   ("mistral".data, safeCall (pRaw env.mistral) "Error from Mistral".data "Mistral".data 8),
   ("claude".data, safeCall (pRaw env.claude) "Error from Claude".data "Claude".data 8),
   ("gemini".data, safeCall (pRaw env.gemini) "Error from Gemini".data "Gemini".data 8)]

/-- The `sources` object of the text flow: each provider closure assigns
`sources[model] = webSources` iff it got past its HTTP exchange.  (The
real insertion order depends on completion order; only lookups are ever
performed on `sources`, and keys are distinct, so a fixed order is
observationally equivalent.) -/
def textSources (env : Env) (webSources : List Evidence) : List (JStr × List Evidence) :=
  (if pSetsSources env.openai then [("openai".data, webSources)] else [])
    ++ (if pSetsSources env.mistral then [("mistral".data, webSources)] else [])
    ++ (if pSetsSources env.claude then [("claude".data, webSources)] else [])
    ++ (if pSetsSources env.gemini then [("gemini".data, webSources)] else [])

/-- What the file-mode Gemini closure returns or throws:
`data.candidates?.[0]?.content?.parts?.[0]?.text || "No response from Gemini"`
after a successful exchange, a throw otherwise. -/
def fileGeminiRaw (o : Except Unit (Option JStr)) : Except Unit JStr :=
  match o with
  | .error e => .error e
  | .ok none => .ok "No response from Gemini".data
  | .ok (some raw) => .ok raw

/-- Observable outcome of one `/ask` request: the HTTP status and JSON
payload (`errorMsg` for the 400 body, `results`/`conclusion`/`respSources`
for the 200 body), plus an effect record: which search query was issued
(`none` = no search call), which providers were invoked, and the prompt
text built for the file-mode provider. -/
structure HandlerResult where
  status : Nat
  errorMsg : Option JStr
  results : List (JStr × JStr)
  conclusion : JStr
  respSources : List Evidence
  searchQuery : Option JStr
  providersCalled : List JStr
  filePromptText : Option JStr
  deriving DecidableEq

/-- The `/ask` handler (lines 107-245): file flow when a file is present,
otherwise the empty-question guard, otherwise the four-provider text flow. -/
def askHandler (req : Req) (env : Env) : HandlerResult :=
  if req.file then
    let fileQuery := if questionOf req = [] then "Describe the uploaded file.".data
      else questionOf req
    let webSources := performWebSearch env.searchResult
    let gemini := safeCall (fileGeminiRaw env.fileGemini) "Error from Gemini".data "Gemini".data 8
    let sourcesMap :=
      match env.fileGemini with
      | .ok _ => [("gemini".data, webSources)]
      | .error _ => []
    { status := 200
      errorMsg := none
      results := [("gemini".data, gemini)]
      conclusion := buildConclusion [("gemini".data, gemini)] sourcesMap
      respSources := webSources
      searchQuery := some fileQuery
      providersCalled := ["gemini".data]
      filePromptText := some (bulletPrompt fileQuery (contextOf webSources) 8 true) }
  else if questionOf req = [] then
    { status := 400
      errorMsg := some "Question cannot be empty".data
      results := []
      conclusion := []
      respSources := []
      searchQuery := none
      providersCalled := []
      filePromptText := none }
  else
    let webSources := performWebSearch env.searchResult
    { status := 200
      errorMsg := none
      results := textResults env
      conclusion := buildConclusion (textResults env) (textSources env webSources)
      respSources := webSources
      searchQuery := some (questionOf req)
      providersCalled := ["openai".data, "mistral".data, "claude".data, "gemini".data]
      filePromptText := none }

/-- Ends of a string are free of whitespace (trivially true of `[]`). -/
def TrimmedEnds (l : JStr) : Prop :=
  (∀ c, l.head? = some c → isSpaceChar c = false) ∧
  (∀ c, l.getLast? = some c → isSpaceChar c = false)

/-- A line of `cleanBullets` output that re-normalizes to itself: marker
prefix `"- "` followed by a stripped text that is emphasis-free,
newline-free, trimmed, stable under the leading-marker strip, and longer
than 3 characters. -/
def StableLine (l : JStr) : Prop :=
  ∃ b, l = '-' :: ' ' :: b ∧ (∀ c ∈ b, isEmphChar c = false) ∧ '\n' ∉ b ∧
    TrimmedEnds b ∧ b.dropWhile isLeadMarker = b ∧ 3 < b.length

/-! ### Basic list facts used throughout -/

theorem lookupS_append {α : Type} (l₁ l₂ : List (JStr × α)) (k : JStr) :
    lookupS (l₁ ++ l₂) k = (lookupS l₁ k).or (lookupS l₂ k) := by
  induction l₁ with
  | nil => simp [lookupS]
  | cons p rest ih =>
    by_cases h : p.1 = k <;> simp [lookupS, h, ih]

theorem dedupFirstAux_sublist : ∀ (seen l : List JStr), List.Sublist (dedupFirstAux seen l) l := by
  intro seen l
  induction l generalizing seen with
  | nil => simp [dedupFirstAux]
  | cons x xs ih =>
    by_cases h : x ∈ seen
    · simp only [dedupFirstAux, if_pos h]
      exact (ih seen).cons x
    · simp only [dedupFirstAux, if_neg h]
      exact (ih (x :: seen)).cons₂ x

theorem not_mem_seen_of_mem_dedupFirstAux :
    ∀ (seen l : List JStr) (x : JStr), x ∈ dedupFirstAux seen l → x ∉ seen := by
  intro seen l
  induction l generalizing seen with
  | nil => intro x hx; simp [dedupFirstAux] at hx
  | cons y ys ih =>
    intro x hx
    by_cases h : y ∈ seen
    · rw [dedupFirstAux, if_pos h] at hx
      exact ih seen x hx
    · rw [dedupFirstAux, if_neg h] at hx
      rcases List.mem_cons.mp hx with rfl | hx'
      · exact h
      · intro hseen
        exact ih (y :: seen) x hx' (List.mem_cons_of_mem y hseen)

theorem nodup_dedupFirstAux : ∀ (seen l : List JStr), (dedupFirstAux seen l).Nodup := by
  intro seen l
  induction l generalizing seen with
  | nil => simp [dedupFirstAux]
  | cons y ys ih =>
    by_cases h : y ∈ seen
    · rw [dedupFirstAux, if_pos h]; exact ih seen
    · rw [dedupFirstAux, if_neg h]
      refine List.Nodup.cons ?_ (ih (y :: seen))
      intro hy
      exact not_mem_seen_of_mem_dedupFirstAux (y :: seen) ys y hy (List.mem_cons_self y seen)

/-! ### Facts about `splitNl` and `joinNl` -/

theorem splitNl_ne_nil (s : JStr) : splitNl s ≠ [] := by
  cases s with
  | nil => simp [splitNl]
  | cons c cs =>
    simp only [splitNl]
    by_cases h : c = '\n'
    · simp [h]
    · simp only [if_neg h]
      cases hs : splitNl cs <;> simp

theorem noNl_of_mem_splitNl : ∀ (s l : JStr), l ∈ splitNl s → '\n' ∉ l := by
  intro s
  induction s with
  | nil =>
    intro l hl
    simp [splitNl] at hl
    subst hl; simp
  | cons c cs ih =>
    intro l hl
    simp only [splitNl] at hl
    by_cases h : c = '\n'
    · rw [if_pos h] at hl
      rcases List.mem_cons.mp hl with rfl | hl'
      · simp
      · exact ih l hl'
    · rw [if_neg h] at hl
      cases hs : splitNl cs with
      | nil => exact absurd hs (splitNl_ne_nil cs)
      | cons t ts =>
        rw [hs] at hl
        rcases List.mem_cons.mp hl with rfl | hl'
        · intro hmem
          rcases List.mem_cons.mp hmem with hc | hmem'
          · exact h hc.symm
          · exact ih t (hs ▸ List.mem_cons_self t ts) hmem'
        · exact ih l (hs ▸ List.mem_cons_of_mem t hl')

theorem splitNl_of_noNl (l : JStr) (h : '\n' ∉ l) : splitNl l = [l] := by
  induction l with
  | nil => rfl
  | cons c cs ih =>
    have hc : ¬ c = '\n' := fun hh => h (hh ▸ List.mem_cons_self c cs)
    have hcs : '\n' ∉ cs := fun hh => h (List.mem_cons_of_mem c hh)
    simp only [splitNl, if_neg hc, ih hcs]

theorem splitNl_append_newline (l rest : JStr) (h : '\n' ∉ l) :
    splitNl (l ++ '\n' :: rest) = l :: splitNl rest := by
  induction l with
  | nil => simp [splitNl]
  | cons c cs ih =>
    have hc : ¬ c = '\n' := fun hh => h (hh ▸ List.mem_cons_self c cs)
    have hcs : '\n' ∉ cs := fun hh => h (List.mem_cons_of_mem c hh)
    simp only [List.cons_append, splitNl, if_neg hc]
    rw [show cs.append ('\n' :: rest) = cs ++ '\n' :: rest from rfl, ih hcs]

theorem splitNl_joinNl :
    ∀ ls : List JStr, ls ≠ [] → (∀ l ∈ ls, '\n' ∉ l) → splitNl (joinNl ls) = ls := by
  intro ls
  induction ls with
  | nil => intro h; exact absurd rfl h
  | cons l ls ih =>
    intro _ hno
    cases ls with
    | nil =>
      simp only [joinNl]
      exact splitNl_of_noNl l (hno l (List.mem_cons_self l []))
    | cons l2 ls2 =>
      simp only [joinNl]
      rw [splitNl_append_newline l _ (hno l (List.mem_cons_self l _))]
      rw [ih (by simp) (fun x hx => hno x (List.mem_cons_of_mem _ hx))]

/-! ### Facts about `dropWhile` and `jsTrim` -/

theorem head?_dropWhile_not (p : Char → Bool) (l : JStr) :
    ∀ c, (l.dropWhile p).head? = some c → p c = false := by
  induction l with
  | nil => intro c h; simp [List.dropWhile] at h
  | cons x xs ih =>
    intro c h
    rw [List.dropWhile_cons] at h
    by_cases hx : p x
    · rw [if_pos hx] at h; exact ih c h
    · rw [if_neg hx] at h
      simp at h
      exact h ▸ Bool.eq_false_iff.mpr hx

theorem getLast?_dropWhile_ne_nil (p : Char → Bool) (l : JStr) (h : l.dropWhile p ≠ []) :
    (l.dropWhile p).getLast? = l.getLast? := by
  induction l with
  | nil => simp [List.dropWhile] at h
  | cons x xs ih =>
    rw [List.dropWhile_cons] at h ⊢
    by_cases hx : p x
    · rw [if_pos hx] at h ⊢
      rw [ih h]
      cases xs with
      | nil => simp [List.dropWhile] at h
      | cons y ys => rw [List.getLast?_cons_cons]
    · rw [if_neg hx]

theorem dropWhile_dropWhile_self (p : Char → Bool) (l : JStr) :
    (l.dropWhile p).dropWhile p = l.dropWhile p := by
  cases h : l.dropWhile p with
  | nil => rfl
  | cons x xs =>
    have hx : p x = false := head?_dropWhile_not p l x (by rw [h]; rfl)
    rw [List.dropWhile_cons, hx]
    simp

theorem dropWhile_eq_self_of_head (p : Char → Bool) (l : JStr)
    (h : ∀ c, l.head? = some c → p c = false) : l.dropWhile p = l := by
  cases l with
  | nil => rfl
  | cons x xs =>
    rw [List.dropWhile_cons, h x rfl]
    simp

theorem mem_of_mem_jsTrim {c : Char} {l : JStr} (h : c ∈ jsTrim l) : c ∈ l := by
  rw [jsTrim, List.mem_reverse] at h
  have h2 : c ∈ (l.dropWhile isSpaceChar).reverse := (List.dropWhile_sublist _).subset h
  rw [List.mem_reverse] at h2
  exact (List.dropWhile_sublist _).subset h2

theorem trimmedEnds_jsTrim (l : JStr) : TrimmedEnds (jsTrim l) := by
  constructor
  · intro c hc
    rw [jsTrim, List.head?_reverse] at hc
    by_cases hX : (l.dropWhile isSpaceChar).reverse.dropWhile isSpaceChar = []
    · rw [hX] at hc; simp at hc
    · rw [getLast?_dropWhile_ne_nil _ _ hX, List.getLast?_reverse] at hc
      exact head?_dropWhile_not _ _ c hc
  · intro c hc
    rw [jsTrim, List.getLast?_reverse] at hc
    exact head?_dropWhile_not _ _ c hc

theorem jsTrim_of_trimmedEnds (l : JStr) (h : TrimmedEnds l) : jsTrim l = l := by
  obtain ⟨h1, h2⟩ := h
  have d1 : l.dropWhile isSpaceChar = l := dropWhile_eq_self_of_head _ l h1
  have d2 : l.reverse.dropWhile isSpaceChar = l.reverse :=
    dropWhile_eq_self_of_head _ l.reverse
      (fun c hc => h2 c (by rw [← List.head?_reverse]; exact hc))
  rw [jsTrim, d1, d2, List.reverse_reverse]

/-! ### Claim C3: the retriever is bounded and failure-silent -/

/-- C3: for every query, the evidence retriever returns at most 5 evidence
records regardless of how many raw search results the search call returned
(only the first 5 are processed), and a failing search call yields the
empty sequence rather than an error. -/
theorem c3_retriever_bounded_and_total :
    (∀ searchResult, (performWebSearch searchResult).length ≤ 5)
    ∧ (∀ e, performWebSearch (Except.error e) = [])
    ∧ (∀ rs, performWebSearch (Except.ok rs) = performWebSearch (Except.ok (rs.take 5))) := by
  refine ⟨?_, fun e => rfl, ?_⟩
  · intro s
    cases s with
    | error e => simp [performWebSearch]
    | ok rs =>
      simp only [performWebSearch]
      calc (((rs.take 5).map extractOne).filterMap id).length
          ≤ ((rs.take 5).map extractOne).length := List.length_filterMap_le _ _
        _ = (rs.take 5).length := List.length_map _ _
        _ ≤ 5 := List.length_take_le _ _
  · intro rs
    simp [performWebSearch, List.take_take]

/-! ### Claim C5: shape of one extracted evidence record -/

/-- Concrete search result separating the claim's reading from the code:
the page parses to an article with a truthy `publishedTime` but no title,
while the search result has a truthy `date` and an empty title. -/
def c5res : RawResult :=
  { link := "u".data
    title := []
    date := some "2021".data
    page := Except.ok (some
      { title := none
        publishedTime := some "2020".data
        excerpt := some "E".data
        textContent := some "X".data }) }

/-- C5 counterexample: the code keeps the search result's `date` (`"2021"`)
in preference to the article's available `publishedTime` (`"2020"`), and
falls back to the search result's empty title with no `"N/A"` fallback,
while the claim's reading (`extractOneClaimed`) would give the article's
date and `"N/A"` for the title.  So `extractOne` differs from the claimed
record at this input. -/
theorem c5_counterexample :
    extractOne c5res =
        some { url := "u".data, title := [], date := "2021".data, excerpt := "E".data }
      ∧ extractOneClaimed c5res =
        some { url := "u".data, title := "N/A".data, date := "2020".data, excerpt := "E".data }
      ∧ extractOne c5res ≠ extractOneClaimed c5res := by
  refine ⟨by decide, by decide, by decide⟩

/-- C5 (amended): for every surviving fetched page, the record's title is
the extracted article's title if truthy, else the search result's title
(with no `"N/A"` fallback); the date is the search result's date if truthy,
else the article's `publishedTime` if truthy, else `"N/A"`; the excerpt is
the extracted article excerpt if truthy, else the first 1000 characters of
the extracted text if truthy, else `"No content"`. -/
theorem c5_amended_extraction : ∀ res, extractOne res = extractOneAmended res := by
  intro res
  obtain ⟨link, title, date, page⟩ := res
  cases page with
  | error e => rfl
  | ok article => rfl

/-! ### Claim C6: empty question in text mode fails fast -/

/-- C6: when no file is uploaded and the (trimmed) question is empty, the
request fails with HTTP 400 and message "Question cannot be empty", and no
search call or provider call is made. -/
theorem c6_empty_question_rejected :
    ∀ req env, req.file = false → questionOf req = [] →
      (askHandler req env).status = 400
      ∧ (askHandler req env).errorMsg = some "Question cannot be empty".data
      ∧ (askHandler req env).searchQuery = none
      ∧ (askHandler req env).providersCalled = [] := by
  intro req env hf hq
  simp [askHandler, hf, hq]

/-- Environment in which every external call fails; used to instantiate
universally quantified statements at a concrete input. -/
def envNone : Env :=
  { searchResult := Except.error ()
    openai := POutcome.netError
    mistral := POutcome.netError
    claude := POutcome.netError
    gemini := POutcome.netError
    fileGemini := Except.error () }

/-- Witness for C6 at the concrete request `{ question: "", file: none }`. -/
theorem c6_witness :
    (askHandler { question := some [], file := false } envNone).status = 400
    ∧ (askHandler { question := some [], file := false } envNone).errorMsg
        = some "Question cannot be empty".data
    ∧ (askHandler { question := some [], file := false } envNone).searchQuery = none
    ∧ (askHandler { question := some [], file := false } envNone).providersCalled = [] :=
  c6_empty_question_rejected { question := some [], file := false } envNone rfl rfl

/-! ### Claim C10: the question is trimmed before any mode decision -/

/-- C10: a whitespace-only question is treated exactly like an absent one:
the handler's result is identical; in text mode it is rejected with the
"Question cannot be empty" client error; in file mode the default
description query "Describe the uploaded file." is used for retrieval
(the issued search query) and for prompting (the prompt handed to the
file-mode provider). -/
theorem c10_whitespace_question :
    ∀ (q : JStr) (env : Env), jsTrim q = [] →
      (∀ f, askHandler { question := some q, file := f } env
          = askHandler { question := none, file := f } env)
      ∧ ((askHandler { question := some q, file := false } env).status = 400
          ∧ (askHandler { question := some q, file := false } env).errorMsg
              = some "Question cannot be empty".data)
      ∧ ((askHandler { question := some q, file := true } env).searchQuery
            = some "Describe the uploaded file.".data
          ∧ (askHandler { question := some q, file := true } env).filePromptText
            = some (bulletPrompt "Describe the uploaded file.".data
                (contextOf (performWebSearch env.searchResult)) 8 true)) := by
  intro q env hq
  refine ⟨?_, ?_, ?_⟩
  · intro f
    cases f <;> simp [askHandler, questionOf, hq]
  · constructor <;> simp [askHandler, questionOf, hq]
  · constructor <;> simp [askHandler, questionOf, hq]

/-- Witness for C10 at the concrete whitespace question `"  "`. -/
theorem c10_witness :
    (askHandler { question := some "  ".data, file := false } envNone
        = askHandler { question := none, file := false } envNone)
    ∧ (askHandler { question := some "  ".data, file := false } envNone).status = 400
    ∧ (askHandler { question := some "  ".data, file := true } envNone).searchQuery
        = some "Describe the uploaded file.".data :=
  ⟨(c10_whitespace_question "  ".data envNone (by decide)).1 false,
   (c10_whitespace_question "  ".data envNone (by decide)).2.1.1,
   (c10_whitespace_question "  ".data envNone (by decide)).2.2.1⟩

/-! ### Claim C2: provider failure isolation -/

/-- C2: `safeCall` turns any thrown/rejected provider call into the fixed
fallback string; in the text flow, when the Gemini exchange fails while
OpenAI, Mistral and Claude succeed, the `results` object carries the
fallback only for Gemini and the normalized bullets for the rest, and the
request still responds with HTTP 200. -/
theorem c2_provider_isolation :
    (∀ fallback name maxB, safeCall (Except.error ()) fallback name maxB = fallback)
    ∧ ∀ req env ro rm rc,
        req.file = false → questionOf req ≠ [] →
        env.openai = POutcome.ok ro → env.mistral = POutcome.ok rm →
        env.claude = POutcome.ok rc → pRaw env.gemini = Except.error () →
        (askHandler req env).status = 200
        ∧ (askHandler req env).results =
            [("openai".data, cleanBullets ro 8),
             ("mistral".data, cleanBullets rm 8),
             ("claude".data, cleanBullets rc 8),
             ("gemini".data, "Error from Gemini".data)] := by
  constructor
  · intro fallback name maxB; rfl
  · intro req env ro rm rc hf hq ho hm hc hg
    constructor
    · simp [askHandler, hf, hq]
    · have hres : textResults env =
          [("openai".data, cleanBullets ro 8),
           ("mistral".data, cleanBullets rm 8),
           ("claude".data, cleanBullets rc 8),
           ("gemini".data, "Error from Gemini".data)] := by
        unfold textResults
        rw [ho, hm, hc, hg]
        rfl
      simp [askHandler, hf, hq, hres]

/-- Environment where the three chat providers succeed with fixed bullet
text and only the Gemini exchange fails. -/
def envGeminiDown : Env :=
  { searchResult := Except.error ()
    openai := POutcome.ok "- alpha fact one".data
    mistral := POutcome.ok "- beta fact two".data
    claude := POutcome.ok "- gamma fact three".data
    gemini := POutcome.netError
    fileGemini := Except.error () }

/-- Witness for C2 at a concrete request and environment. -/
theorem c2_witness :
    (askHandler { question := some "q".data, file := false } envGeminiDown).status = 200
    ∧ (askHandler { question := some "q".data, file := false } envGeminiDown).results =
        [("openai".data, cleanBullets "- alpha fact one".data 8),
         ("mistral".data, cleanBullets "- beta fact two".data 8),
         ("claude".data, cleanBullets "- gamma fact three".data 8),
         ("gemini".data, "Error from Gemini".data)] :=
  c2_provider_isolation.2 { question := some "q".data, file := false } envGeminiDown
    "- alpha fact one".data "- beta fact two".data "- gamma fact three".data
    rfl (by decide) rfl rfl rfl rfl

/-! ### Claim C4: shape of the normalizer output -/

/-- C4: for every input text and maximum, `cleanBullets` produces at most
`max` lines; every produced line is the uniform marker `"- "` followed by
the stripped-and-trimmed text of one input line, and that text has length
greater than 3 (lines of length ≤ 3 after stripping are discarded). -/
theorem c4_normalizer_shape :
    ∀ (text : JStr) (maxB : Nat),
      (cleanBulletLines text maxB).length ≤ maxB
      ∧ ∀ l ∈ cleanBulletLines text maxB,
          ∃ b ∈ (splitNl text).map stripLine, l = '-' :: ' ' :: b ∧ 3 < b.length := by
  intro text maxB
  constructor
  · unfold cleanBulletLines
    rw [List.length_map]
    exact List.length_take_le _ _
  · intro l hl
    simp only [cleanBulletLines, List.mem_map] at hl
    obtain ⟨b, hb, rfl⟩ := hl
    have hb' := List.take_subset _ _ hb
    have hmem := List.mem_filter.mp hb'
    exact ⟨b, hmem.1, rfl, by simpa using hmem.2⟩

/-- Witness for C4 at the concrete input `"hello"`. -/
theorem c4_witness :
    (cleanBulletLines "hello".data 8).length ≤ 8
    ∧ ∃ b ∈ (splitNl "hello".data).map stripLine,
        "- hello".data = '-' :: ' ' :: b ∧ 3 < b.length :=
  ⟨(c4_normalizer_shape "hello".data 8).1,
   (c4_normalizer_shape "hello".data 8).2 "- hello".data (by decide)⟩

/-! ### Claim C1: shape of the aggregated conclusion -/

/-- C1: `buildConclusion` is a pure function of its two inputs (hence
deterministic); it emits at most 5 decorated lines; no two of them share
pre-citation text (the retained bullets are a duplicate-free sublist of the
concatenation of all providers' bullets, provider order first, in-provider
order second, keeping first occurrences); and if every provider's text has
no surviving bullets, the conclusion is the empty string. -/
theorem c1_conclusion_shape :
    ∀ results sources,
      (conclusionList results sources).length ≤ 5
      ∧ ((conclusionBullets results).map (fun b => '-' :: ' ' :: b)).Nodup
      ∧ List.Sublist (conclusionBullets results) (allLines results)
      ∧ ((∀ p ∈ results, entryBullets p.2 = []) → buildConclusion results sources = []) := by
  intro results sources
  refine ⟨?_, ?_, ?_, ?_⟩
  · unfold conclusionList conclusionBullets
    rw [List.length_map]
    exact List.length_take_le _ _
  · refine List.Nodup.map ?_ ?_
    · intro a b h
      simpa using h
    · exact (List.take_sublist 5 _).nodup (nodup_dedupFirstAux [] _)
  · exact (List.take_sublist _ _).trans (dedupFirstAux_sublist [] _)
  · intro h
    have hall : allLines results = [] := by
      rw [allLines, List.flatten_eq_nil_iff]
      intro l hl
      rcases List.mem_map.mp hl with ⟨p, hp, rfl⟩
      exact h p hp
    simp [buildConclusion, conclusionList, conclusionBullets, hall, dedupFirst,
      dedupFirstAux, joinNl]

/-- Witness for C1: a provider whose normalized text has no surviving
bullets yields the empty conclusion. -/
theorem c1_witness :
    buildConclusion [("m".data, "ab".data)] [] = [] :=
  (c1_conclusion_shape [("m".data, "ab".data)] []).2.2.2 (by decide)

/-! ### Claim C7: positional citations, last writer wins, suffix format -/

theorem getLast?_cons_or {α : Type} (a : α) (l : List α) :
    (a :: l).getLast? = l.getLast?.or (some a) := by
  cases l with
  | nil => rfl
  | cons b bs =>
    rw [List.getLast?_cons_cons]
    cases h : (b :: bs).getLast? with
    | none => exact absurd (List.getLast?_eq_none_iff.mp h) (List.cons_ne_nil b bs)
    | some x => rfl

theorem foldl_citStep_eq (sources : List (JStr × List Evidence)) (model : JStr) :
    ∀ (l : List (Nat × JStr)) (m : JStr → Option Evidence) (b : JStr),
      l.foldl (citStepBullet sources model) m b =
        ((l.filterMap
            (fun pr => if pr.2 = b then citeAt sources model pr.1 else none)).getLast?).or
          (m b) := by
  intro l
  induction l with
  | nil => intro m b; rfl
  | cons pr rest ih =>
    intro m b
    rw [List.foldl_cons, ih, List.filterMap_cons]
    by_cases hpr : pr.2 = b
    · rw [if_pos hpr]
      cases hca : citeAt sources model pr.1 with
      | some ev =>
        rw [getLast?_cons_or, Option.or_assoc, Option.or_some]
        congr 1
        simp [citStepBullet, hca, updateCit, hpr]
      | none =>
        simp [citStepBullet, hca]
    · rw [if_neg hpr]
      cases hca : citeAt sources model pr.1 with
      | some ev =>
        have hb : ¬ b = pr.2 := fun hh => hpr hh.symm
        simp [citStepBullet, hca, updateCit, if_neg hb]
      | none =>
        simp [citStepBullet, hca]

theorem citationsMapOf_eq_lastWrite :
    ∀ (results : List (JStr × JStr)) (sources : List (JStr × List Evidence)) (b : JStr),
      citationsMapOf results sources b = (citationWrites results sources b).getLast? := by
  have main : ∀ (sources : List (JStr × List Evidence)) (rs : List (JStr × JStr))
      (m : JStr → Option Evidence) (b : JStr),
      (rs.foldl (fun m p => ((entryBullets p.2).enum).foldl (citStepBullet sources p.1) m) m) b
        = ((rs.map (fun p => ((entryBullets p.2).enum).filterMap
            (fun pr => if pr.2 = b then citeAt sources p.1 pr.1 else none))).flatten.getLast?).or
          (m b) := by
    intro sources rs
    induction rs with
    | nil => intro m b; rfl
    | cons p rest ih =>
      intro m b
      rw [List.foldl_cons, ih, List.map_cons, List.flatten_cons, List.getLast?_append,
        foldl_citStep_eq, Option.or_assoc]
  intro results sources b
  unfold citationsMapOf citationWrites
  rw [main, Option.or_none]

/-- C7: the citation map realizes exactly last-writer-wins over the
positional writes described by `citationWrites` (for each provider's bullet
at index `i`, the evidence at index `i` of that provider's evidence list,
when present); each retained conclusion line is the bullet prefixed with
`"- "` and suffixed with the markdown-style citation built from the last
write's title, url, and date (with `"N/A"` replacing a falsy date), and a
line whose bullet has no citation gets no suffix. -/
theorem c7_citation_map :
    ∀ results sources,
      (∀ b, citationsMapOf results sources b = (citationWrites results sources b).getLast?)
      ∧ conclusionList results sources =
          (conclusionBullets results).map
            (fun b => ('-' :: ' ' :: b) ++
              citeSuffix ((citationWrites results sources b).getLast?))
      ∧ citeSuffix none = []
      ∧ (∀ ev, citeSuffix (some ev) =
          " [".data ++ ev.title ++ "](".data ++ ev.url ++ ") (".data ++
            (if ev.date = [] then "N/A".data else ev.date) ++ ")".data) := by
  intro results sources
  refine ⟨citationsMapOf_eq_lastWrite results sources, ?_, rfl, fun ev => rfl⟩
  unfold conclusionList
  exact List.map_congr_left (fun b _ => by rw [citationsMapOf_eq_lastWrite])

/-! ### Claim C8: re-normalization behaviour of `cleanBullets` -/

theorem leadMarker_of_space {c : Char} (h : isSpaceChar c = true) : isLeadMarker c = true := by
  simp [isLeadMarker, h]

theorem stripLine_noEmph (l : JStr) : ∀ c ∈ stripLine l, isEmphChar c = false := by
  intro c hc
  have h1 := mem_of_mem_jsTrim hc
  have h2 := (List.mem_filter.mp h1).2
  simpa using h2

theorem stripLine_noNl (l : JStr) (h : '\n' ∉ l) : '\n' ∉ stripLine l := by
  intro hmem
  have h1 := mem_of_mem_jsTrim hmem
  have h2 := (List.mem_filter.mp h1).1
  exact h ((List.dropWhile_sublist _).subset h2)

theorem trimmedEnds_dropWhile_lead (b : JStr) (hT : TrimmedEnds b) :
    TrimmedEnds (b.dropWhile isLeadMarker) := by
  constructor
  · intro c hc
    have h := head?_dropWhile_not isLeadMarker b c hc
    cases hsp : isSpaceChar c with
    | false => rfl
    | true => rw [leadMarker_of_space hsp] at h; simp at h
  · intro c hc
    by_cases hnil : b.dropWhile isLeadMarker = []
    · rw [hnil] at hc; exact Option.noConfusion hc
    · rw [getLast?_dropWhile_ne_nil _ _ hnil] at hc
      exact hT.2 c hc

theorem stripLine_dash_space (b : JStr)
    (hE : ∀ c ∈ b, isEmphChar c = false) (hT : TrimmedEnds b) :
    stripLine ('-' :: ' ' :: b) = b.dropWhile isLeadMarker := by
  have hd : isLeadMarker '-' = true := by decide
  have hs : isLeadMarker ' ' = true := by decide
  have h1 : ('-' :: ' ' :: b).dropWhile isLeadMarker = b.dropWhile isLeadMarker := by
    simp [List.dropWhile_cons, hd, hs]
  have h2 : (b.dropWhile isLeadMarker).filter (fun c => !isEmphChar c)
      = b.dropWhile isLeadMarker :=
    List.filter_eq_self.mpr (fun c hc => by
      have := hE c ((List.dropWhile_sublist _).subset hc)
      simp [this])
  rw [stripLine, h1, h2]
  exact jsTrim_of_trimmedEnds _ (trimmedEnds_dropWhile_lead b hT)

theorem mem_cleanBulletLines (text : JStr) (maxB : Nat) (l : JStr)
    (hl : l ∈ cleanBulletLines text maxB) :
    ∃ b, l = '-' :: ' ' :: b ∧ (∃ raw ∈ splitNl text, b = stripLine raw) ∧ 3 < b.length := by
  simp only [cleanBulletLines, List.mem_map] at hl
  obtain ⟨b, hb, rfl⟩ := hl
  have hb' := List.take_subset _ _ hb
  have hmem := List.mem_filter.mp hb'
  rcases List.mem_map.mp hmem.1 with ⟨raw, hraw, rfl⟩
  exact ⟨stripLine raw, rfl, ⟨raw, hraw, rfl⟩, by simpa using hmem.2⟩

theorem goodLine_of_mem_cleanBulletLines (text : JStr) (maxB : Nat) (l : JStr)
    (hl : l ∈ cleanBulletLines text maxB) :
    ∃ b, l = '-' :: ' ' :: b ∧ (∀ c ∈ b, isEmphChar c = false) ∧ '\n' ∉ b ∧
      TrimmedEnds b ∧ 3 < b.length := by
  obtain ⟨b, rfl, ⟨raw, hraw, rfl⟩, hlen⟩ := mem_cleanBulletLines text maxB l hl
  exact ⟨stripLine raw, rfl, stripLine_noEmph raw,
    stripLine_noNl raw (noNl_of_mem_splitNl _ _ hraw), trimmedEnds_jsTrim _, hlen⟩

theorem cleanBulletLines_nil (maxB : Nat) : cleanBulletLines [] maxB = [] := by
  simp [cleanBulletLines, splitNl, stripLine, jsTrim]

theorem cleanBullets_nil (maxB : Nat) : cleanBullets [] maxB = [] := by
  rw [cleanBullets, cleanBulletLines_nil]
  rfl

theorem cleanLines_fixed :
    ∀ (ls : List JStr) (maxB : Nat), ls.length ≤ maxB → (∀ l ∈ ls, StableLine l) →
      (((ls.map stripLine).filter (fun l => decide (3 < l.length))).take maxB).map
          (fun l => '-' :: ' ' :: l) = ls := by
  intro ls
  induction ls with
  | nil => intro maxB _ _; simp
  | cons l rest ih =>
    intro maxB hlen hst
    obtain ⟨b, hlb, hE, hN, hT, hD, hL⟩ := hst l (List.mem_cons_self l rest)
    subst hlb
    have hs : stripLine ('-' :: ' ' :: b) = b := by
      rw [stripLine_dash_space b hE hT, hD]
    cases maxB with
    | zero => simp at hlen
    | succ m =>
      have hq : decide (3 < b.length) = true := by simpa using hL
      simp only [List.map_cons, hs, List.filter_cons, hq, if_pos, List.take_succ_cons]
      congr 1
      exact ih m (by simpa using hlen) (fun x hx => hst x (List.mem_cons_of_mem _ hx))

theorem noNl_of_stableLine (l : JStr) (h : StableLine l) : '\n' ∉ l := by
  obtain ⟨b, rfl, _, hN, _⟩ := h
  intro hmem
  rcases List.mem_cons.mp hmem with h1 | h1
  · exact absurd h1 (by decide)
  · rcases List.mem_cons.mp h1 with h2 | h2
    · exact absurd h2 (by decide)
    · exact hN h2

theorem cleanBullets_fixed (maxB : Nat) (ls : List JStr)
    (hlen : ls.length ≤ maxB) (hst : ∀ l ∈ ls, StableLine l) :
    cleanBullets (joinNl ls) maxB = joinNl ls := by
  cases ls with
  | nil =>
    show cleanBullets (joinNl []) maxB = joinNl []
    rw [show joinNl [] = [] from rfl, cleanBullets_nil]
  | cons l rest =>
    have hnoNl : ∀ x ∈ l :: rest, '\n' ∉ x := fun x hx => noNl_of_stableLine x (hst x hx)
    unfold cleanBullets cleanBulletLines
    rw [splitNl_joinNl _ (List.cons_ne_nil l rest) hnoNl,
      cleanLines_fixed (l :: rest) maxB hlen hst]

theorem stableLine_of_mem_clean_clean (text : JStr) (maxB : Nat) (l : JStr)
    (hl : l ∈ cleanBulletLines (cleanBullets text maxB) maxB) : StableLine l := by
  by_cases hnil : cleanBulletLines text maxB = []
  · have hempty : cleanBullets text maxB = [] := by
      unfold cleanBullets
      rw [hnil]
      rfl
    rw [hempty, cleanBulletLines_nil] at hl
    exact absurd hl (List.not_mem_nil l)
  · have hlines : ∀ x ∈ cleanBulletLines text maxB, '\n' ∉ x := by
      intro x hx
      obtain ⟨b, rfl, hE, hN, hT, hL⟩ := goodLine_of_mem_cleanBulletLines _ _ x hx
      intro hmem
      rcases List.mem_cons.mp hmem with h1 | h1
      · exact absurd h1 (by decide)
      · rcases List.mem_cons.mp h1 with h2 | h2
        · exact absurd h2 (by decide)
        · exact hN h2
    have hsplit : splitNl (cleanBullets text maxB) = cleanBulletLines text maxB := by
      unfold cleanBullets
      exact splitNl_joinNl _ hnil hlines
    obtain ⟨b2, rfl, ⟨raw, hraw, hb2⟩, hlen⟩ := mem_cleanBulletLines _ _ l hl
    rw [hsplit] at hraw
    obtain ⟨b1, hrw, hE1, hN1, hT1, hL1⟩ := goodLine_of_mem_cleanBulletLines _ _ raw hraw
    subst hrw
    have hs : stripLine ('-' :: ' ' :: b1) = b1.dropWhile isLeadMarker :=
      stripLine_dash_space b1 hE1 hT1
    subst hb2
    rw [hs] at hlen ⊢
    refine ⟨b1.dropWhile isLeadMarker, rfl, ?_, ?_, ?_, ?_, hlen⟩
    · intro c hc
      exact hE1 c ((List.dropWhile_sublist _).subset hc)
    · intro hc
      exact hN1 ((List.dropWhile_sublist _).subset hc)
    · exact trimmedEnds_dropWhile_lead b1 hT1
    · exact dropWhile_dropWhile_self _ _

/-- C8 counterexample: `cleanBullets` is not idempotent.  On the input
backtick-dash-"abcd", the first pass strips the backtick (an inline-code
marker that is not a leading list marker), exposing a leading dash that the
first pass's leading strip never saw; re-applying the normalizer to the
output `"- -abcd"` strips that dash and yields `"- abcd"`. -/
theorem c8_counterexample :
    cleanBullets (cleanBullets "`-abcd".data 8) 8 ≠ cleanBullets "`-abcd".data 8 := by
  decide

/-- C8 (amended): the normalizer is idempotent from the second application
on: re-applying `cleanBullets` to the output of a double application yields
that output again (a single application need not be a fixed point, because
removing inline emphasis/code markers can expose a fresh leading list
marker, as in the counterexample). -/
theorem c8_amended_idempotent :
    ∀ (text : JStr) (maxB : Nat),
      cleanBullets (cleanBullets (cleanBullets text maxB) maxB) maxB
        = cleanBullets (cleanBullets text maxB) maxB := by
  intro text maxB
  show cleanBullets (joinNl (cleanBulletLines (cleanBullets text maxB) maxB)) maxB = _
  rw [cleanBullets_fixed maxB _ ?_ ?_]
  · rfl
  · unfold cleanBulletLines
    rw [List.length_map]
    exact List.length_take_le _ _
  · intro l hl
    exact stableLine_of_mem_clean_clean text maxB l hl

/-! ### Claim C9: fallback strings in the conclusion and their citations -/

/-- Search result used to exercise the citation path: it extracts
successfully to the record `ev9`. -/
def res9 : RawResult :=
  { link := "u".data
    title := "T".data
    date := some "2021".data
    page := Except.ok (some
      { title := some "AT".data
        publishedTime := some "2020".data
        excerpt := some "E".data
        textContent := some "X".data }) }

/-- The evidence record extracted from `res9`. -/
def ev9 : Evidence :=
  { url := "u".data, title := "AT".data, date := "2021".data, excerpt := "E".data }

/-- Environment in which the search succeeds with one page, the three chat
providers fail at the network level (before their `sources` assignment),
and Gemini's HTTP exchange succeeds but its response body is malformed
(after its `sources.gemini = webSources` assignment). -/
def env9 : Env :=
  { searchResult := Except.ok [res9]
    openai := POutcome.netError
    mistral := POutcome.netError
    claude := POutcome.netError
    gemini := POutcome.malformed
    fileGemini := Except.error () }

/-- Text-mode request used with `env9`. -/
def req9 : Req := { question := some "q".data, file := false }

/-- C9 counterexample: the fallback `"Error from Gemini"` CAN carry a
citation suffix.  Gemini's closure assigns `sources.gemini = webSources`
right after its HTTP exchange and only then reads the response body, so a
malformed body leaves the evidence mapping populated for Gemini while
`safeCall` returns the fallback; the aggregator then pairs the fallback
bullet (index 0) with evidence index 0 and decorates the conclusion line.
This refutes the claim that a fallback line never carries a citation
suffix. -/
theorem c9_counterexample :
    lookupS (askHandler req9 env9).results "gemini".data = some "Error from Gemini".data
    ∧ citationsMapOf (textResults env9)
        (textSources env9 (performWebSearch env9.searchResult)) "Error from Gemini".data
        = some ev9
    ∧ (askHandler req9 env9).conclusion =
        ("- Error from OpenAI\n- Error from Mistral\n- Error from Claude\n"
          ++ "- Error from Gemini [AT](u) (2021)").data := by
  refine ⟨by decide, by decide, by decide⟩

/-- C9 (amended): a provider's fallback string is fed to the aggregator
like any normalized bullet (its stripped length exceeds 3, so it survives
re-splitting and can appear as a conclusion line).  The per-provider
evidence mapping is populated exactly when the provider's HTTP exchange
succeeded — including when the response body then proves malformed — and is
left unpopulated by a network-level failure, so a network-failed provider
contributes no citation writes at all (its fallback line is uncited unless
an identical bullet from another provider wrote one), while a
malformed-body fallback can carry a citation suffix. -/
theorem c9_amended_fallback_citations :
    (entryBullets "Error from OpenAI".data = ["Error from OpenAI".data]
      ∧ entryBullets "Error from Mistral".data = ["Error from Mistral".data]
      ∧ entryBullets "Error from Claude".data = ["Error from Claude".data]
      ∧ entryBullets "Error from Gemini".data = ["Error from Gemini".data])
    ∧ (pSetsSources POutcome.netError = false
      ∧ pSetsSources POutcome.malformed = true
      ∧ ∀ r, pSetsSources (POutcome.ok r) = true)
    ∧ (∀ env ws,
        lookupS (textSources env ws) "openai".data
            = (if pSetsSources env.openai then some ws else none)
        ∧ lookupS (textSources env ws) "mistral".data
            = (if pSetsSources env.mistral then some ws else none)
        ∧ lookupS (textSources env ws) "claude".data
            = (if pSetsSources env.claude then some ws else none)
        ∧ lookupS (textSources env ws) "gemini".data
            = (if pSetsSources env.gemini then some ws else none))
    ∧ (∀ env ws i, env.openai = POutcome.netError →
        citeAt (textSources env ws) "openai".data i = none)
    ∧ (∀ env ws i, env.gemini = POutcome.malformed →
        citeAt (textSources env ws) "gemini".data i = ws.get? i) := by
  refine ⟨by refine ⟨by decide, by decide, by decide, by decide⟩, ⟨rfl, rfl, fun r => rfl⟩,
    ?_, ?_, ?_⟩
  · intro env ws
    refine ⟨?_, ?_, ?_, ?_⟩ <;>
      cases h1 : pSetsSources env.openai <;>
      cases h2 : pSetsSources env.mistral <;>
      cases h3 : pSetsSources env.claude <;>
      cases h4 : pSetsSources env.gemini <;>
      simp +decide [textSources, lookupS_append, lookupS, h1, h2, h3, h4]
  · intro env ws i h
    have h1 : pSetsSources env.openai = false := by rw [h]; rfl
    cases h2 : pSetsSources env.mistral <;>
      cases h3 : pSetsSources env.claude <;>
      cases h4 : pSetsSources env.gemini <;>
      simp +decide [citeAt, textSources, lookupS_append, lookupS, h1, h2, h3, h4]
  · intro env ws i h
    have h4 : pSetsSources env.gemini = true := by rw [h]; rfl
    cases h1 : pSetsSources env.openai <;>
      cases h2 : pSetsSources env.mistral <;>
      cases h3 : pSetsSources env.claude <;>
      simp +decide [citeAt, textSources, lookupS_append, lookupS, h1, h2, h3, h4]

/-- Witness for C9 (amended) at the concrete environment `env9`. -/
theorem c9_witness :
    citeAt (textSources env9 [ev9]) "openai".data 0 = none
    ∧ citeAt (textSources env9 [ev9]) "gemini".data 0 = some ev9 := by
  constructor
  · exact c9_amended_fallback_citations.2.2.2.1 env9 [ev9] 0 rfl
  · have h := c9_amended_fallback_citations.2.2.2.2 env9 [ev9] 0 rfl
    rw [h]
    rfl
